import Mathlib

set_option maxRecDepth 40000

/-!
Shallow embedding of the WS2812 LED controller firmware (`src/main.rs`):
the color model (`Rgb`, `from_hsv`, the `From<&Rgb> for u32` packing), the
pulse encoder (`send_led_signal`), and the UDP packet ingestion loop
(`create_udp_server`), together with theorems settling the specification
claims about them.

Machine integers of the source (`u8`, `u16`, `u32`) are modelled as `Nat`;
none of the modelled operations can overflow their source-level width
(bytes come from a received buffer, `u16` big-endian reads of two bytes are
below `2 ^ 16`, and the 24-bit packing of three bytes is below `2 ^ 32`).
The floating point arithmetic of `from_hsv` is modelled over `ℚ`; the
claims about `from_hsv` depend only on its range guard and on the
saturating byte cast, not on rounding of intermediate values.
-/

/-- Pixel color, one byte per channel, mirroring `struct Rgb { r: u8, g: u8, b: u8 }`. -/
structure Rgb where
  r : ℕ
  g : ℕ
  b : ℕ
  deriving DecidableEq

/-- Mirrors `Rgb::new(r, g, b)`. -/
def Rgb.new (r g b : ℕ) : Rgb := ⟨r, g, b⟩

/-- Mirrors `Rgb::from_slice(rgb: &[u8; 3])`: field `r` from index 0, `g` from 1, `b` from 2. -/
def Rgb.from_slice (rgb : List ℕ) : Rgb :=
  Rgb.new (rgb.getD 0 0) (rgb.getD 1 0) (rgb.getD 2 0)

/-- The call site `chunk.try_into()` of `Rgb::from_slice`: converting a byte slice to
a `[u8; 3]` succeeds exactly when the slice has length 3; a failed conversion makes
the `.expect("slice with incorrect length")` panic, modelled as `none`. -/
def tryIntoRgb (chunk : List ℕ) : Option Rgb :=
  if chunk.length = 3 then some (Rgb.from_slice chunk) else none

/-- The error message of the `bail!` in `Rgb::from_hsv`. -/
def hsvRangeError : String := "The given HSV values are not in valid range"

/-- Rust floating `%` with modulus 2 for a nonnegative dividend:
`a % 2.0 = a - 2.0 * (a / 2.0).trunc()`, and truncation equals floor for `a ≥ 0`. -/
def fmod2 (a : ℚ) : ℚ := a - 2 * ⌊a / 2⌋

/-- Rust `as u8` cast of a nonnegative float: truncate toward zero and saturate at 255. -/
def toByte (q : ℚ) : ℕ := min 255 ⌊q⌋.toNat

/-- Mirrors `Rgb::from_hsv(h, s, v)`: range guard, HSV→RGB conversion (over `ℚ`),
sextant selection by `h`, and the saturating `as u8` casts. -/
def Rgb.from_hsv (h s v : ℕ) : Except String Rgb :=
  if 360 < h ∨ 100 < s ∨ 100 < v then
    Except.error hsvRangeError
  else
    Except.ok (fromHsvBody h s v)
where
  /-- The conversion body after the range guard. -/
  fromHsvBody (h s v : ℕ) : Rgb :=
    let s' : ℚ := (s : ℚ) / 100
    let v' : ℚ := (v : ℚ) / 100
    let c : ℚ := s' * v'
    let x : ℚ := c * (1 - |fmod2 ((h : ℚ) / 60) - 1|)
    let m : ℚ := v' - c
    let rgb : ℚ × ℚ × ℚ :=
      if h ≤ 59 then (c, x, 0)
      else if h ≤ 119 then (x, c, 0)
      else if h ≤ 179 then (0, c, x)
      else if h ≤ 239 then (0, x, c)
      else if h ≤ 299 then (x, 0, c)
      else (c, 0, x)
    Rgb.new (toByte ((rgb.1 + m) * 255)) (toByte ((rgb.2.1 + m) * 255))
      (toByte ((rgb.2.2 + m) * 255))

/-- Mirrors `impl From<&Rgb> for u32`:
`(rgb.g as u32) | ((rgb.r as u32) << 8) | ((rgb.b as u32) << 16)`. -/
def rgbToU32 (rgb : Rgb) : ℕ := rgb.g ||| rgb.r <<< 8 ||| rgb.b <<< 16

/-- One pixel of the pulse waveform built by `send_led_signal`: for
`i in (0..24).rev()`, test bit `i` of the packed color (`2_u32.pow(i) & color != 0`)
and push the `(t1h, t1l)` pair if set, else `(t0h, t0l)`. Pulses are abstract
values of type `α` (their construction by `Pulse::new_with_duration` belongs to
the opaque transmit peripheral). -/
def pixelBits {α : Type} (t0h t0l t1h t1l : α) (color : Rgb) : List (α × α) :=
  (List.range 24).reverse.map (fun i =>
    if 2 ^ i &&& rgbToU32 color ≠ 0 then (t1h, t1l) else (t0h, t0l))

/-- The waveform built by the pixel loop of `send_led_signal`: pixels in order,
24 pulse pairs per pixel. -/
def ledSignal {α : Type} (t0h t0l t1h t1l : α) : List Rgb → List (α × α)
  | [] => []
  | color :: rest => pixelBits t0h t0l t1h t1l color ++ ledSignal t0h t0l t1h t1l rest

/-- Log severities used by the ingestion loop (`info!` and `warn!`). -/
inductive LogLevel where
  | info
  | warn
  deriving DecidableEq

/-- The log statements of the UDP receive loop in `create_udp_server`, in source order. -/
inductive LogEvent where
  | received (size : ℕ)
  | invalidSize (size : ℕ)
  | insufficientSize (size : ℕ)
  | updatingUniverse (u : ℕ)
  | ledOverflow (i : ℕ) (values : ℕ)
  deriving DecidableEq

/-- Severity of each log statement: the two validation failures use `warn!`,
everything else (including the LED-overflow message) uses `info!`. -/
def LogEvent.level : LogEvent → LogLevel
  | .invalidSize _ => .warn
  | .insufficientSize _ => .warn
  | _ => .info

/-- Outcome of one iteration of the UDP receive loop. -/
inductive PacketResult where
  | rejectedSize
  | rejectedTruncated
  | panicked
  | ok
  deriving DecidableEq

/-- `u16::from_be_bytes([hi, lo])` on two bytes. -/
def be16 (hi lo : ℕ) : ℕ := hi * 256 + lo

/-- The 16-bit big-endian universe field, `buf[113..=114]`. Bytes beyond the received
data read 0, as in the zero-initialized 638-byte receive array. -/
def universeOf (payload : List ℕ) : ℕ := be16 (payload.getD 113 0) (payload.getD 114 0)

/-- The 16-bit big-endian property value count, `buf[123..=124]`. -/
def pvcOf (payload : List ℕ) : ℕ := be16 (payload.getD 123 0) (payload.getD 124 0)

/-- Rust `slice::chunks(3)`: consecutive chunks of 3 bytes, the last possibly shorter. -/
def chunks3 : List ℕ → List (List ℕ)
  | [] => []
  | a :: b :: c :: rest => [a, b, c] :: chunks3 rest
  | l => [l]

/-- The chunk-writing `for` loop of `create_udp_server`: for chunk `i`, first check
`i >= rgb_stripe_state.len()` (log the overflow and break), else write
`rgb_stripe_state[i] = Rgb::from_slice(chunk.try_into().expect(..))` — a chunk
shorter than 3 bytes makes the `expect` panic (third component `true`). -/
def writeChunks (pvc : ℕ) : List (List ℕ) → ℕ → List Rgb → List Rgb × List LogEvent × Bool
  | [], _, state => (state, [], false)
  | c :: rest, i, state =>
    if state.length ≤ i then
      (state, [LogEvent.ledOverflow i (pvc - 1)], false)
    else
      match tryIntoRgb c with
      | none => (state, [], true)
      | some rgb => writeChunks pvc rest (i + 1) (state.set i rgb)

/-- One iteration of the UDP receive loop of `create_udp_server`, applied to the
received payload (`size = payload.length`) and the stripe frame buffer:
size-range check `(125..=638).contains(&size)`, truncation check
`size < 125 + property_value_count`, then the chunk loop over
`buf[125..125 + property_value_count]`. Returns the resulting buffer, the
iteration outcome, and the emitted log events. -/
def processPacket (payload : List ℕ) (stripe : List Rgb) :
    List Rgb × PacketResult × List LogEvent :=
  if ¬ (125 ≤ payload.length ∧ payload.length ≤ 638) then
    (stripe, PacketResult.rejectedSize,
      [LogEvent.received payload.length, LogEvent.invalidSize payload.length])
  else if payload.length < 125 + pvcOf payload then
    (stripe, PacketResult.rejectedTruncated,
      [LogEvent.received payload.length, LogEvent.insufficientSize payload.length])
  else
    match writeChunks (pvcOf payload) (chunks3 ((payload.drop 125).take (pvcOf payload))) 0
        stripe with
    | (stripe2, logs, panicked) =>
      (stripe2,
        if panicked then PacketResult.panicked else PacketResult.ok,
        LogEvent.received payload.length :: LogEvent.updatingUniverse (universeOf payload)
          :: logs)

/-- The two shared frame buffers of `run_main`: the onboard LED state and the
stripe state (each an `Arc<RwLock<Vec<Rgb>>>`). -/
structure ServerState where
  onboard : List Rgb
  stripe : List Rgb
  deriving DecidableEq

/-- The body of the UDP receive loop acting on the full server state: it only
rebinds the stripe buffer (the loop body never touches the onboard buffer). -/
def loopBody (payload : List ℕ) (st : ServerState) : ServerState × PacketResult :=
  ((ServerState.mk st.onboard (processPacket payload st.stripe).1),
    (processPacket payload st.stripe).2.1)

/-- The receive loop over a sequence of incoming payloads: a panic kills the
serving thread, so processing stops at the first panicking packet. -/
def processAll : List (List ℕ) → ServerState → ServerState
  | [], st => st
  | p :: ps, st =>
    if (loopBody p st).2 = PacketResult.panicked then (loopBody p st).1
    else processAll ps (loopBody p st).1

/-- The stripe buffer as initialized in `run_main`: 50 pushes of
`Rgb::from_hsv(150, 100, 13)?` (which succeeds; see `from_hsv_ok`). -/
def initStripe : List Rgb :=
  List.replicate 50 ((Rgb.from_hsv 150 100 13).toOption.getD (Rgb.new 0 0 0))

/-- The server state at entry of the UDP receive loop: the onboard buffer holds the
single pixel `Rgb::new(0, 0, 8)` written just before the loop, the stripe buffer its
50 initialization pixels. -/
def initState : ServerState := ServerState.mk [Rgb.new 0 0 8] initStripe

/-- Modelled from the spec: the HTTP control endpoint (`POST /post`) is absent from
`src/` (only the UDP server exists there); per spec §4.5 its body is a JSON object
with a boolean `rainbow` flag and a list of RGB triples `ledstates`. -/
structure ControlRequest where
  rainbow : Bool
  ledstates : List (ℕ × ℕ × ℕ)

/-- Modelled from the spec: the buffer update of the HTTP control endpoint, absent
from `src/`. Spec §4.5: with `rainbow = true`, ignore `ledstates` and replace the
entire buffer with 360 pixels, one per integer hue step 0..359 at saturation 100
and value 100, via the color model `from_hsv`; with `rainbow = false`, clear the
buffer and push each supplied triple in order. -/
def httpApply (req : ControlRequest) (_buf : List Rgb) : List Rgb :=
  if req.rainbow then
    (List.range 360).map (fun h => (Rgb.from_hsv h 100 100).toOption.getD (Rgb.new 0 0 0))
  else
    req.ledstates.map (fun t => Rgb.new t.1 t.2.1 t.2.2)

/-! ## Helper lemmas -/

theorem toByte_le (q : ℚ) : toByte q ≤ 255 := Nat.min_le_left _ _

theorem from_hsv_ok (h s v : ℕ) (hh : h ≤ 360) (hs : s ≤ 100) (hv : v ≤ 100) :
    Rgb.from_hsv h s v = Except.ok (Rgb.from_hsv.fromHsvBody h s v) := by
  unfold Rgb.from_hsv
  rw [if_neg (by omega)]

theorem fromHsvBody_le (h s v : ℕ) :
    (Rgb.from_hsv.fromHsvBody h s v).r ≤ 255 ∧
    (Rgb.from_hsv.fromHsvBody h s v).g ≤ 255 ∧
    (Rgb.from_hsv.fromHsvBody h s v).b ≤ 255 :=
  ⟨toByte_le _, toByte_le _, toByte_le _⟩

/-! ## Claim theorems -/

/-- C2 (code bug evaluation). The claim (and the doc comment of the
`From<&Rgb> for u32` impl, whose own example is `rgb = (1,2,4)`) places green in
bits 16–23 and blue in bits 0–7, i.e. packed value `0x020104 = 131332`; the code
computes `g | (r << 8) | (b << 16) = 0x040102 = 262402`, so bits 16–23 hold blue
and bits 0–7 hold green. -/
theorem C2_packed_layout_bug :
    rgbToU32 (Rgb.new 1 2 4) = 262402 ∧
    rgbToU32 (Rgb.new 1 2 4) ≠ 2 <<< 16 ||| 1 <<< 8 ||| 4 ∧
    (rgbToU32 (Rgb.new 1 2 4) >>> 16) % 256 = 4 ∧
    rgbToU32 (Rgb.new 1 2 4) % 256 = 2 := by
  decide

/-- C6. `from_hsv(h, s, v)` fails with the `InvalidRange` error exactly when
`h > 360` or `s > 100` or `v > 100`; for every input within those inclusive
bounds it succeeds with all three channels in `[0, 255]`. -/
theorem C6_from_hsv_range (h s v : ℕ) :
    (Rgb.from_hsv h s v = Except.error hsvRangeError ↔ (360 < h ∨ 100 < s ∨ 100 < v)) ∧
    (h ≤ 360 → s ≤ 100 → v ≤ 100 →
      ∃ c : Rgb, Rgb.from_hsv h s v = Except.ok c ∧ c.r ≤ 255 ∧ c.g ≤ 255 ∧ c.b ≤ 255) := by
  constructor
  · constructor
    · intro he
      by_contra hc
      rw [from_hsv_ok h s v (by omega) (by omega) (by omega)] at he
      exact Except.noConfusion he
    · intro hc
      unfold Rgb.from_hsv
      rw [if_pos hc]
  · intro hh hs hv
    exact ⟨Rgb.from_hsv.fromHsvBody h s v, from_hsv_ok h s v hh hs hv,
      (fromHsvBody_le h s v).1, (fromHsvBody_le h s v).2.1, (fromHsvBody_le h s v).2.2⟩

/-- Witness for C6 at `(361, 100, 100)` (out of range) and `(150, 100, 13)`
(the stripe initialization color, in range). -/
theorem C6_from_hsv_range_witness :
    Rgb.from_hsv 361 100 100 = Except.error hsvRangeError ∧
    (∃ c : Rgb, Rgb.from_hsv 150 100 13 = Except.ok c ∧ c.r ≤ 255 ∧ c.g ≤ 255 ∧ c.b ≤ 255) :=
  ⟨(C6_from_hsv_range 361 100 100).1.mpr (by omega),
    (C6_from_hsv_range 150 100 13).2 (by omega) (by omega) (by omega)⟩

/-- C7. A payload rejected by either validation check (size out of the 125–638
range, or truncated relative to the property-value count) leaves the stripe
frame buffer exactly as it was. -/
theorem C7_reject_preserves (payload : List ℕ) (stripe : List Rgb)
    (hrej : (processPacket payload stripe).2.1 = PacketResult.rejectedSize ∨
      (processPacket payload stripe).2.1 = PacketResult.rejectedTruncated) :
    (processPacket payload stripe).1 = stripe := by
  by_cases h1 : ¬ (125 ≤ payload.length ∧ payload.length ≤ 638)
  · simp only [processPacket, if_pos h1]
  · by_cases h2 : payload.length < 125 + pvcOf payload
    · simp only [processPacket, if_neg h1, if_pos h2]
    · exfalso
      simp only [processPacket, if_neg h1, if_neg h2] at hrej
      rcases hw : writeChunks (pvcOf payload)
          (chunks3 ((payload.drop 125).take (pvcOf payload))) 0 stripe with ⟨s2, logs, pk⟩
      rw [hw] at hrej
      cases pk <;> simp at hrej

/-- Witness for C7: a 3-byte payload is rejected for size and the one-pixel
buffer is untouched. -/
theorem C7_reject_preserves_witness :
    (processPacket (List.replicate 3 0) [Rgb.new 5 6 7]).2.1 = PacketResult.rejectedSize ∧
    (processPacket (List.replicate 3 0) [Rgb.new 5 6 7]).1 = [Rgb.new 5 6 7] :=
  ⟨by decide, C7_reject_preserves _ _ (Or.inl (by decide))⟩

/-- C4. The three validation behaviors of UDP ingestion: any size outside the
inclusive range 125–638 is rejected; any in-range size below
`125 + property_value_count` is rejected as truncated; a size-125 payload with
property-value count 0 is accepted and updates zero pixels. -/
theorem C4_validation :
    (∀ (payload : List ℕ) (stripe : List Rgb),
      ¬ (125 ≤ payload.length ∧ payload.length ≤ 638) →
      processPacket payload stripe =
        (stripe, PacketResult.rejectedSize,
          [LogEvent.received payload.length, LogEvent.invalidSize payload.length])) ∧
    (∀ (payload : List ℕ) (stripe : List Rgb),
      125 ≤ payload.length → payload.length ≤ 638 →
      payload.length < 125 + pvcOf payload →
      processPacket payload stripe =
        (stripe, PacketResult.rejectedTruncated,
          [LogEvent.received payload.length, LogEvent.insufficientSize payload.length])) ∧
    (∀ (payload : List ℕ) (stripe : List Rgb),
      payload.length = 125 → pvcOf payload = 0 →
      processPacket payload stripe =
        (stripe, PacketResult.ok,
          [LogEvent.received payload.length,
            LogEvent.updatingUniverse (universeOf payload)])) := by
  refine ⟨?_, ?_, ?_⟩
  · intro payload stripe h
    simp only [processPacket, if_pos h]
  · intro payload stripe h1 h2 h3
    have hns : ¬¬ (125 ≤ payload.length ∧ payload.length ≤ 638) := not_not_intro ⟨h1, h2⟩
    simp only [processPacket, if_neg hns, if_pos h3]
  · intro payload stripe hlen hpvc
    have h1 : ¬¬ (125 ≤ payload.length ∧ payload.length ≤ 638) := by omega
    have h2 : ¬ (payload.length < 125 + pvcOf payload) := by omega
    simp only [processPacket, if_neg h1, if_neg h2]
    rw [hpvc, List.take_zero]
    simp [chunks3, writeChunks]

/-- Witness for C4: size 124 rejected, size 639 rejected, an in-range truncated
payload rejected, and a size-125 payload with property-value count 0 accepted
with the buffer unchanged. -/
theorem C4_validation_witness :
    processPacket (List.replicate 124 0) [Rgb.new 1 1 1] =
      ([Rgb.new 1 1 1], PacketResult.rejectedSize,
        [LogEvent.received 124, LogEvent.invalidSize 124]) ∧
    processPacket (List.replicate 639 0) [Rgb.new 1 1 1] =
      ([Rgb.new 1 1 1], PacketResult.rejectedSize,
        [LogEvent.received 639, LogEvent.invalidSize 639]) ∧
    processPacket ((List.replicate 125 0).set 124 1) [Rgb.new 1 1 1] =
      ([Rgb.new 1 1 1], PacketResult.rejectedTruncated,
        [LogEvent.received 125, LogEvent.insufficientSize 125]) ∧
    processPacket (List.replicate 125 0) [Rgb.new 1 1 1] =
      ([Rgb.new 1 1 1], PacketResult.ok,
        [LogEvent.received 125, LogEvent.updatingUniverse 0]) :=
  ⟨(C4_validation.1 (List.replicate 124 0) [Rgb.new 1 1 1] (by decide)).trans (by decide),
    (C4_validation.1 (List.replicate 639 0) [Rgb.new 1 1 1] (by decide)).trans (by decide),
    (C4_validation.2.1 ((List.replicate 125 0).set 124 1) [Rgb.new 1 1 1] (by decide)
      (by decide) (by decide)).trans (by decide),
    (C4_validation.2.2 (List.replicate 125 0) [Rgb.new 1 1 1] (by decide)
      (by decide)).trans (by decide)⟩

/-- C1 (code bug evaluation). A 126-byte payload whose property-value count is 1
(bytes 123–124 are `(0, 1)`) passes both validation checks, but its single
1-byte chunk makes `chunk.try_into().expect(..)` panic inside the write loop of
the actual 50-pixel stripe buffer — ingestion crashes instead of dropping the
packet with a warning. -/
theorem C1_ingest_panics :
    (processPacket ((List.replicate 126 0).set 124 1) initStripe).2.1 =
      PacketResult.panicked ∧
    pvcOf ((List.replicate 126 0).set 124 1) % 3 ≠ 0 := by
  decide

theorem pixelBits_length {α : Type} (t0h t0l t1h t1l : α) (c : Rgb) :
    (pixelBits t0h t0l t1h t1l c).length = 24 := by
  simp [pixelBits]

theorem pixelBits_getElem {α : Type} (t0h t0l t1h t1l : α) (c : Rgb) (i : ℕ) (hi : i < 24) :
    (pixelBits t0h t0l t1h t1l c)[i]? =
      some (if 2 ^ (23 - i) &&& rgbToU32 c ≠ 0 then (t1h, t1l) else (t0h, t0l)) := by
  unfold pixelBits
  rw [List.getElem?_map, List.getElem?_reverse (by simpa using hi), List.length_range,
    List.getElem?_range (by omega)]
  norm_num

/-- C3. For every timing profile (abstract pulse values `t0h t0l t1h t1l`) and
every pixel sequence, the encoder emits exactly `24 × K` pulse pairs, the empty
sequence yields the empty waveform, and the pair at position `24 j + i` (pixel
`j`, bit index `i` counted from the most significant bit of the 24-bit packed
value) is `(t1h, t1l)` when that bit is set and `(t0h, t0l)` otherwise. -/
theorem C3_pulse_encoder {α : Type} (t0h t0l t1h t1l : α) (colors : List Rgb) :
    (ledSignal t0h t0l t1h t1l colors).length = 24 * colors.length ∧
    ledSignal t0h t0l t1h t1l ([] : List Rgb) = [] ∧
    (∀ j i, j < colors.length → i < 24 →
      (ledSignal t0h t0l t1h t1l colors)[24 * j + i]? =
        some (if 2 ^ (23 - i) &&& rgbToU32 (colors.getD j (Rgb.new 0 0 0)) ≠ 0
          then (t1h, t1l) else (t0h, t0l))) := by
  refine ⟨?_, rfl, ?_⟩
  · induction colors with
    | nil => rfl
    | cons c rest ih =>
      simp only [ledSignal, List.length_append, List.length_cons, pixelBits_length, ih]
      ring
  · induction colors with
    | nil =>
      intro j i hj hi
      exact absurd hj (by simp)
    | cons c rest ih =>
      intro j i hj hi
      cases j with
      | zero =>
        have h0 : 24 * 0 + i = i := by omega
        rw [h0]
        simp only [ledSignal]
        rw [List.getElem?_append]
        rw [pixelBits_length, if_pos hi, pixelBits_getElem t0h t0l t1h t1l c i hi,
          List.getD_cons_zero]
      | succ j =>
        have hsh : 24 * (j + 1) + i = 24 + (24 * j + i) := by ring
        rw [hsh]
        simp only [ledSignal]
        rw [List.getElem?_append_right (by rw [pixelBits_length]; omega), pixelBits_length]
        rw [show 24 + (24 * j + i) - 24 = 24 * j + i from by omega]
        exact ih j i (by simpa using hj) hi

/-- Witness for C3 at one red pixel: 24 pairs, and position 8 (bit 15, the most
significant red bit, which is set) carries the 1-bit pulse pair. -/
theorem C3_pulse_encoder_witness :
    (ledSignal 10 20 30 40 [Rgb.new 255 0 0]).length = 24 ∧
    (ledSignal 10 20 30 40 [Rgb.new 255 0 0])[24 * 0 + 8]? = some (30, 40) := by
  have h := C3_pulse_encoder 10 20 30 40 [Rgb.new 255 0 0]
  refine ⟨by simpa using h.1, ?_⟩
  rw [h.2.2 0 8 (by decide) (by decide)]
  decide

/-- C9 (spec-modelled; the HTTP endpoint is absent from `src/`). With
`rainbow = true` the control endpoint ignores `ledstates` (and the previous
buffer): the buffer is replaced by exactly 360 pixels, where pixel `h` is the
successful result of `from_hsv(h, 100, 100)`. -/
theorem C9_rainbow (ls ls2 : List (ℕ × ℕ × ℕ)) (buf buf2 : List Rgb) :
    httpApply (ControlRequest.mk true ls) buf = httpApply (ControlRequest.mk true ls2) buf2 ∧
    (httpApply (ControlRequest.mk true ls) buf).length = 360 ∧
    (∀ h, h < 360 → ∃ c : Rgb, Rgb.from_hsv h 100 100 = Except.ok c ∧
      (httpApply (ControlRequest.mk true ls) buf)[h]? = some c) := by
  refine ⟨rfl, by simp [httpApply], ?_⟩
  intro h hh
  refine ⟨Rgb.from_hsv.fromHsvBody h 100 100,
    from_hsv_ok h 100 100 (by omega) le_rfl le_rfl, ?_⟩
  simp only [httpApply, if_pos]
  rw [List.getElem?_map, List.getElem?_range hh]
  simp [from_hsv_ok h 100 100 (by omega) le_rfl le_rfl, Except.toOption]

/-- Witness for C9 at hue 120 (pure green). -/
theorem C9_rainbow_witness :
    ∃ c : Rgb, Rgb.from_hsv 120 100 100 = Except.ok c ∧
      (httpApply (ControlRequest.mk true []) [])[120]? = some c :=
  (C9_rainbow [] [] [] []).2.2 120 (by omega)

theorem chunks3_length : ∀ l : List ℕ, (chunks3 l).length = (l.length + 2) / 3
  | [] => rfl
  | [_] => by simp [chunks3]
  | [_, _] => by simp [chunks3]
  | _ :: _ :: _ :: rest => by
    simp only [chunks3, List.length_cons, chunks3_length rest]
    omega

theorem chunks3_getD : ∀ (l : List ℕ) (j : ℕ), 3 * j + 3 ≤ l.length →
    (chunks3 l).getD j [] = [l.getD (3 * j) 0, l.getD (3 * j + 1) 0, l.getD (3 * j + 2) 0]
  | [], j, h => by simp only [List.length_nil] at h; omega
  | [_], j, h => by simp only [List.length_cons, List.length_nil] at h; omega
  | [_, _], j, h => by simp only [List.length_cons, List.length_nil] at h; omega
  | a :: b :: c :: rest, j, h => by
    cases j with
    | zero => rfl
    | succ j =>
      have h3 : 3 * j + 3 ≤ rest.length := by
        simp only [List.length_cons] at h
        omega
      simp only [chunks3, List.getD_cons_succ,
        show 3 * (j + 1) = 3 * j + 1 + 1 + 1 from by ring,
        show 3 * (j + 1) + 1 = 3 * j + 1 + 1 + 1 + 1 from by ring,
        show 3 * (j + 1) + 2 = 3 * j + 2 + 1 + 1 + 1 from by ring]
      exact chunks3_getD rest j h3

theorem tryIntoRgb_length3 (c : List ℕ) (h : c.length = 3) :
    tryIntoRgb c = some (Rgb.from_slice c) := by
  unfold tryIntoRgb
  rw [if_pos h]

theorem writeChunks_length (pvc : ℕ) :
    ∀ (cs : List (List ℕ)) (i : ℕ) (state : List Rgb),
      (writeChunks pvc cs i state).1.length = state.length
  | [], _, _ => rfl
  | c :: rest, i, state => by
    simp only [writeChunks]
    split
    · rfl
    · split
      · rfl
      · rw [writeChunks_length pvc rest _ _, List.length_set]

theorem processPacket_stripe_length (payload : List ℕ) (stripe : List Rgb) :
    (processPacket payload stripe).1.length = stripe.length := by
  unfold processPacket
  split
  · rfl
  · split
    · rfl
    · have hl := writeChunks_length (pvcOf payload)
        (chunks3 ((payload.drop 125).take (pvcOf payload))) 0 stripe
      rcases hw : writeChunks (pvcOf payload)
          (chunks3 ((payload.drop 125).take (pvcOf payload))) 0 stripe with ⟨s2, logs, pk⟩
      rw [hw] at hl
      simpa using hl

theorem processAll_invariant : ∀ (ps : List (List ℕ)) (st : ServerState),
    (processAll ps st).onboard = st.onboard ∧
    (processAll ps st).stripe.length = st.stripe.length
  | [], _ => ⟨rfl, rfl⟩
  | p :: ps, st => by
    simp only [processAll]
    split
    · exact ⟨rfl, processPacket_stripe_length p st.stripe⟩
    · have ih := processAll_invariant ps (loopBody p st).1
      exact ⟨ih.1, ih.2.trans (processPacket_stripe_length p st.stripe)⟩

/-- C10. The receive-loop body only rebinds stripe pixel values: the onboard
buffer is untouched and both buffer lengths are preserved by every processed
packet, so from the loop-entry state the stripe buffer keeps its initialization
length of 50 across any packet sequence. -/
theorem C10_buffer_isolation :
    (∀ (payload : List ℕ) (st : ServerState),
      (loopBody payload st).1.onboard = st.onboard ∧
      (loopBody payload st).1.stripe.length = st.stripe.length) ∧
    (∀ ps : List (List ℕ),
      (processAll ps initState).onboard = initState.onboard ∧
      (processAll ps initState).stripe.length = 50) := by
  constructor
  · intro payload st
    exact ⟨rfl, processPacket_stripe_length payload st.stripe⟩
  · intro ps
    have h := processAll_invariant ps initState
    refine ⟨h.1, h.2.trans ?_⟩
    simp [initState, initStripe]

theorem writeChunks_spec (pvc : ℕ) :
    ∀ (cs : List (List ℕ)) (i : ℕ) (state : List Rgb),
      i ≤ state.length →
      (∀ j, j < cs.length → i + j < state.length → (cs.getD j []).length = 3) →
      (writeChunks pvc cs i state).2.2 = false ∧
      (writeChunks pvc cs i state).2.1 =
        (if state.length < i + cs.length
          then [LogEvent.ledOverflow state.length (pvc - 1)] else []) ∧
      (∀ k, (writeChunks pvc cs i state).1[k]? =
        if i ≤ k ∧ k - i < cs.length ∧ k < state.length
        then tryIntoRgb (cs.getD (k - i) [])
        else state[k]?)
  | [], i, state, hi, _ => by
    simp only [writeChunks, List.length_nil]
    refine ⟨trivial, ?_, ?_⟩
    · rw [if_neg (by omega)]
    · intro k
      rw [if_neg (by omega)]
  | c :: rest, i, state, hi, h3 => by
    by_cases hlen : state.length ≤ i
    · have hieq : i = state.length := le_antisymm hi hlen
      simp only [writeChunks, if_pos hlen, List.length_cons]
      refine ⟨trivial, ?_, ?_⟩
      · rw [if_pos (by omega), hieq]
      · intro k
        rw [if_neg (by omega)]
    · have hlt : i < state.length := Nat.lt_of_not_le hlen
      have hc3 : c.length = 3 := by
        have := h3 0 (by simp) (by omega)
        simpa using this
      simp only [writeChunks, if_neg hlen, tryIntoRgb_length3 c hc3]
      have ih := writeChunks_spec pvc rest (i + 1) (state.set i (Rgb.from_slice c))
        (by rw [List.length_set]; omega)
        (by
          intro j hj hjl
          rw [List.length_set] at hjl
          have := h3 (j + 1) (by simpa using Nat.succ_lt_succ hj) (by omega)
          simpa using this)
      obtain ⟨ihf, ihl, ihk⟩ := ih
      rw [List.length_set] at ihl
      refine ⟨ihf, ?_, ?_⟩
      · rw [ihl, List.length_cons]
        exact if_congr (by omega) rfl rfl
      · intro k
        rw [ihk k, List.length_set, List.length_cons]
        by_cases hk : k = i
        · subst hk
          rw [if_neg (by omega), if_pos (by omega), List.getElem?_set_self hlt,
            Nat.sub_self, List.getD_cons_zero, tryIntoRgb_length3 c hc3]
        · rw [List.getElem?_set_ne (Ne.symm hk)]
          by_cases hik : i < k
          · by_cases hcond : i + 1 ≤ k ∧ k - (i + 1) < rest.length ∧ k < state.length
            · rw [if_pos hcond, if_pos (by omega),
                show k - i = (k - (i + 1)) + 1 from by omega, List.getD_cons_succ]
            · rw [if_neg hcond, if_neg (by omega)]
          · rw [if_neg (by omega), if_neg (by omega)]

theorem slice_length (payload : List ℕ) (n : ℕ) (hlen : 125 + n ≤ payload.length) :
    ((payload.drop 125).take n).length = n := by
  rw [List.length_take, List.length_drop]
  omega

theorem slice_getD (payload : List ℕ) (n m : ℕ) (hm : m < n)
    (_hlen : 125 + n ≤ payload.length) :
    ((payload.drop 125).take n).getD m 0 = payload.getD (125 + m) 0 := by
  rw [List.getD_eq_getElem?_getD, List.getD_eq_getElem?_getD, List.getElem?_take,
    if_pos hm, List.getElem?_drop]

/-- C5 (amended). For every accepted UDP payload whose chunk loop completes
without panicking — the property-value count `N` is a multiple of 3, or the
index of the final short chunk is at least the buffer length `L` — exactly the
first `min(ceil(N / 3), L)` buffer indices are overwritten, chunk `i` (bytes
`125 + 3 i ..`) to index `i`; every later index keeps its previous value; and
when there are more chunks than `L`, the excess is discarded and reported by a
single LED-overflow log entry, which is emitted at info (not warning) level,
while the packet still succeeds. -/
theorem C5_prefix_update (payload : List ℕ) (stripe : List Rgb)
    (hlo : 125 ≤ payload.length) (hhi : payload.length ≤ 638)
    (hcnt : 125 + pvcOf payload ≤ payload.length)
    (hN : pvcOf payload % 3 = 0 ∨ stripe.length ≤ pvcOf payload / 3) :
    (processPacket payload stripe).2.1 = PacketResult.ok ∧
    (∀ i, i < min ((pvcOf payload + 2) / 3) stripe.length →
      (processPacket payload stripe).1[i]? =
        some (Rgb.new (payload.getD (125 + 3 * i) 0) (payload.getD (125 + 3 * i + 1) 0)
          (payload.getD (125 + 3 * i + 2) 0))) ∧
    (∀ i, min ((pvcOf payload + 2) / 3) stripe.length ≤ i →
      (processPacket payload stripe).1[i]? = stripe[i]?) ∧
    (stripe.length < (pvcOf payload + 2) / 3 →
      (processPacket payload stripe).2.2 =
        [LogEvent.received payload.length, LogEvent.updatingUniverse (universeOf payload),
          LogEvent.ledOverflow stripe.length (pvcOf payload - 1)] ∧
      (LogEvent.ledOverflow stripe.length (pvcOf payload - 1)).level = LogLevel.info) := by
  have hns : ¬¬ (125 ≤ payload.length ∧ payload.length ≤ 638) := by omega
  have hnt : ¬ (payload.length < 125 + pvcOf payload) := by omega
  have hslen : ((payload.drop 125).take (pvcOf payload)).length = pvcOf payload :=
    slice_length payload (pvcOf payload) hcnt
  have hcs : (chunks3 ((payload.drop 125).take (pvcOf payload))).length =
      (pvcOf payload + 2) / 3 := by
    rw [chunks3_length, hslen]
  have hfull : ∀ j, j < (pvcOf payload + 2) / 3 → j < stripe.length →
      3 * j + 3 ≤ pvcOf payload := by
    intro j h1 h2
    rcases hN with h | h
    · omega
    · omega
  have h3 : ∀ j, j < (chunks3 ((payload.drop 125).take (pvcOf payload))).length →
      0 + j < stripe.length →
      ((chunks3 ((payload.drop 125).take (pvcOf payload))).getD j []).length = 3 := by
    intro j hj hjs
    rw [hcs] at hj
    rw [chunks3_getD _ j (by rw [hslen]; exact hfull j hj (by omega))]
    rfl
  obtain ⟨hflag, hlogs, hidx⟩ := writeChunks_spec (pvcOf payload)
    (chunks3 ((payload.drop 125).take (pvcOf payload))) 0 stripe (Nat.zero_le _) h3
  rcases hw : writeChunks (pvcOf payload)
      (chunks3 ((payload.drop 125).take (pvcOf payload))) 0 stripe with ⟨s2, logs, pk⟩
  rw [hw] at hflag hlogs hidx
  simp only at hflag hlogs hidx
  subst hflag
  have hproc : processPacket payload stripe =
      (s2, PacketResult.ok,
        LogEvent.received payload.length :: LogEvent.updatingUniverse (universeOf payload)
          :: logs) := by
    simp only [processPacket, if_neg hns, if_neg hnt, hw]
    rfl
  rw [hproc]
  refine ⟨rfl, ?_, ?_, ?_⟩
  · intro i hi
    rw [Nat.lt_min] at hi
    have h1 := hidx i
    rw [if_pos (by omega)] at h1
    simp only []
    rw [h1, Nat.sub_zero]
    have hj3 : 3 * i + 3 ≤ pvcOf payload := hfull i hi.1 hi.2
    rw [chunks3_getD _ i (by rw [hslen]; exact hj3)]
    rw [tryIntoRgb_length3 _ (by rfl)]
    simp only [Rgb.from_slice, List.getD_cons_zero, List.getD_cons_succ]
    rw [slice_getD payload _ _ (by omega) hcnt, slice_getD payload _ _ (by omega) hcnt,
      slice_getD payload _ _ (by omega) hcnt,
      show 125 + (3 * i + 1) = 125 + 3 * i + 1 from by ring,
      show 125 + (3 * i + 2) = 125 + 3 * i + 2 from by ring]
  · intro i hi
    have h1 := hidx i
    rw [if_neg (by omega)] at h1
    simpa using h1
  · intro hover
    constructor
    · simp only []
      rw [hlogs, if_pos (by omega)]
    · rfl

/-- Counterexample to C5 as stated. First input: an accepted 127-byte payload
with property-value count 2 (one 2-byte chunk) against a 1-pixel buffer — the
claim demands that exactly index 0 be overwritten with the chunk's pixel, but
the chunk loop panics and index 0 keeps its previous value `(1,1,1)`. Second
input: an accepted 131-byte payload with property-value count 6 (two chunks)
against the same 1-pixel buffer — the excess chunk is reported by the
LED-overflow log entry, which is emitted at info level, not at the
warning level the claim states. -/
theorem C5_counterexample :
    (processPacket ((List.replicate 127 0).set 124 2) [Rgb.new 1 1 1]).2.1 =
      PacketResult.panicked ∧
    (processPacket ((List.replicate 127 0).set 124 2) [Rgb.new 1 1 1]).1[0]? =
      some (Rgb.new 1 1 1) ∧
    (LogEvent.ledOverflow 1 5).level ≠ LogLevel.warn ∧
    (processPacket ((List.replicate 131 0).set 124 6) [Rgb.new 1 1 1]).2.2 =
      [LogEvent.received 131, LogEvent.updatingUniverse 0,
        LogEvent.ledOverflow 1 5] := by
  decide

/-- Witness for the amended C5: an accepted 128-byte payload with
property-value count 3 carrying bytes `(9, 8, 7)` against a 2-pixel buffer
overwrites exactly index 0 and leaves index 1 unchanged. -/
theorem C5_prefix_update_witness :
    (processPacket (((((List.replicate 128 0).set 124 3).set 125 9).set 126 8).set 127 7)
      [Rgb.new 1 1 1, Rgb.new 2 2 2]).2.1 = PacketResult.ok ∧
    (processPacket (((((List.replicate 128 0).set 124 3).set 125 9).set 126 8).set 127 7)
      [Rgb.new 1 1 1, Rgb.new 2 2 2]).1[0]? = some (Rgb.new 9 8 7) ∧
    (processPacket (((((List.replicate 128 0).set 124 3).set 125 9).set 126 8).set 127 7)
      [Rgb.new 1 1 1, Rgb.new 2 2 2]).1[1]? = some (Rgb.new 2 2 2) := by
  have h := C5_prefix_update
    (((((List.replicate 128 0).set 124 3).set 125 9).set 126 8).set 127 7)
    [Rgb.new 1 1 1, Rgb.new 2 2 2] (by decide) (by decide) (by decide) (by decide)
  refine ⟨h.1, ?_, ?_⟩
  · rw [h.2.1 0 (by decide)]
    decide
  · rw [h.2.2.1 1 (by decide)]
    decide

/-- C8. For two payloads of equal size that agree on every byte except
possibly the universe field at offsets 113–114, and that pass validation,
ingestion produces identical stripe buffer states: the universe field is
consumed only by the `info!` log. -/
theorem C8_universe_informational (p1 p2 : List ℕ) (stripe : List Rgb)
    (hlen : p1.length = p2.length)
    (hagree : ∀ i, i < p1.length → i ≠ 113 → i ≠ 114 → p1.getD i 0 = p2.getD i 0)
    (hacc : (processPacket p1 stripe).2.1 ≠ PacketResult.rejectedSize ∧
      (processPacket p1 stripe).2.1 ≠ PacketResult.rejectedTruncated) :
    (processPacket p1 stripe).1 = (processPacket p2 stripe).1 := by
  by_cases hs : 125 ≤ p1.length ∧ p1.length ≤ 638
  · have h123 : p1.getD 123 0 = p2.getD 123 0 := hagree 123 (by omega) (by omega) (by omega)
    have h124 : p1.getD 124 0 = p2.getD 124 0 := hagree 124 (by omega) (by omega) (by omega)
    have hpvc : pvcOf p1 = pvcOf p2 := by
      unfold pvcOf be16
      rw [h123, h124]
    by_cases ht : p1.length < 125 + pvcOf p1
    · exfalso
      apply hacc.2
      simp only [processPacket, if_neg (not_not_intro hs), if_pos ht]
    · have hpv : (p1.drop 125).take (pvcOf p1) = (p2.drop 125).take (pvcOf p1) := by
        apply List.ext_getElem?
        intro j
        rw [List.getElem?_take, List.getElem?_take]
        by_cases hj : j < pvcOf p1
        · rw [if_pos hj, if_pos hj, List.getElem?_drop, List.getElem?_drop]
          by_cases hjl : 125 + j < p1.length
          · have ha := hagree (125 + j) hjl (by omega) (by omega)
            rw [List.getD_eq_getElem?_getD, List.getD_eq_getElem?_getD,
              List.getElem?_eq_getElem hjl,
              List.getElem?_eq_getElem (show 125 + j < p2.length by omega)] at ha
            simp only [Option.getD_some] at ha
            rw [List.getElem?_eq_getElem hjl,
              List.getElem?_eq_getElem (show 125 + j < p2.length by omega), ha]
          · rw [List.getElem?_eq_none (by omega), List.getElem?_eq_none (by omega)]
        · rw [if_neg hj, if_neg hj]
      have hns1 : ¬¬ (125 ≤ p1.length ∧ p1.length ≤ 638) := not_not_intro hs
      have hns2 : ¬¬ (125 ≤ p2.length ∧ p2.length ≤ 638) := by omega
      have ht2 : ¬ (p2.length < 125 + pvcOf p2) := by omega
      simp only [processPacket, if_neg hns1, if_neg ht, if_neg hns2, if_neg ht2]
      rw [← hpvc, ← hpv]
  · exfalso
    apply hacc.1
    simp only [processPacket, if_pos hs]

/-- Witness for C8: a size-125 all-zero payload and the same payload with
universe high byte 7 produce the same (unchanged) one-pixel buffer. -/
theorem C8_universe_informational_witness :
    (processPacket (List.replicate 125 0) [Rgb.new 1 2 3]).1 =
      (processPacket ((List.replicate 125 0).set 113 7) [Rgb.new 1 2 3]).1 := by
  apply C8_universe_informational
  · decide
  · decide
  · exact ⟨by decide, by decide⟩
